import Mathlib

/-!
Shallow embedding of the browser script of studiofoam.dev
(src/script.js and src/unnamed/part_000), restricted to the two
functions the claims are about: `initScrollAnimations` (the Viewport
Entry Animator) and `initFoamAnimation` (the Decorative Timing
Assigner).

Modelling conventions:
* A DOM element is identified by a natural number.
* Inline style properties touched by `initScrollAnimations` are kept in a
  `Style` record whose fields hold the literal strings the script writes
  (`none` = the property was never set by the script, i.e. the stylesheet
  default is in force).
* `IntersectionObserver` notifications are lists of `Entry` values; the
  observer's bookkeeping (which elements are currently observed) is a list
  of element ids.  `setTimeout(f, d)` is modelled by recording a
  `Scheduled` value carrying the target and the delay in milliseconds;
  the timer's eventual effect is the `reveal` style mutation.
* `initFoamAnimation` mutates styles and class lists per cell; the per-cell
  effect is modelled as the list of `Mutation`s performed on that cell, in
  program order.  `getBBox()` either returns a box or throws; a cell whose
  query throws carries `bbox = none`.  Each `Math.random()` call is an
  injected uniform draw in [0,1); the two draws a cell's processing uses
  are carried on the cell as `r1`, `r2`.
* `requestAnimationFrame` defers the whole foam pass; `initFoamAnimation`
  returns `none` when it returns before scheduling that deferred pass and
  `some (primary, interstitial)` with the per-cell mutation lists when the
  deferred pass runs.
-/

namespace StudioFoam

/-- The inline style properties `initScrollAnimations` touches on a watched
element.  A field is `none` while the script has never written it. -/
structure Style where
  opacity : Option String := none
  transform : Option String := none
  transition : Option String := none
  deriving DecidableEq, Repr

/-- Lines 128-132: the initial hidden state applied to every animated element
before observation starts. -/
def hiddenInit (s : Style) : Style :=
  { s with
      opacity := some "0",
      transform := some "translateY(20px)",
      transition := some "opacity 0.5s ease, transform 0.5s ease" }

/-- Lines 139-140: the reveal mutation run when a stagger timer fires; it sets
only opacity and the translation, leaving the transition in place. -/
def reveal (s : Style) : Style :=
  { s with opacity := some "1", transform := some "translateY(0)" }

/-- One `IntersectionObserverEntry` of a notification batch. -/
structure Entry where
  target : ℕ
  isIntersecting : Bool
  deriving DecidableEq, Repr

/-- A `setTimeout` scheduled by the observer callback: which element will be
revealed and after how many milliseconds. -/
structure Scheduled where
  target : ℕ
  delayMs : ℕ
  deriving DecidableEq, Repr

/-- Observer-side state: the current inline styles of every element and the
list of element ids the observer is still observing. -/
structure ScrollState where
  styles : ℕ → Style
  observed : List ℕ

/-- The environment `initScrollAnimations` reads: whether
`IntersectionObserver` exists on `window`, and the elements matching
`.feature-card, .content-card, .faq-item, .contact-card`. -/
structure ScrollEnv where
  hasIntersectionObserver : Bool
  animatedElements : List ℕ

/-- Lines 117-132 and 152 of the source: capability check, element query,
initial hidden state, and registration of every element with the observer.
Returns the styles after the synchronous part and the list of observed
elements (empty when the function returned early). -/
def initScrollAnimations (env : ScrollEnv) (styles : ℕ → Style) :
    (ℕ → Style) × List ℕ :=
  if env.hasIntersectionObserver = false then (styles, [])
  else if env.animatedElements = [] then (styles, [])
  else
    (fun e => if e ∈ env.animatedElements then hiddenInit (styles e) else styles e,
     env.animatedElements)

/-- Lines 135-141: `entries.forEach((entry, index) => ...)`; an intersecting
entry gets a reveal scheduled after `index * 100` ms, where `index` is the
entry's position in the callback's entries list.  `i` is the position of the
head of the remaining list. -/
def scheduleEntries : ℕ → List Entry → List Scheduled
  | _, [] => []
  | i, e :: es =>
      (if e.isIntersecting then [⟨e.target, i * 100⟩] else []) ++
        scheduleEntries (i + 1) es

/-- Line 144: `observer.unobserve(entry.target)` for every intersecting entry
of the batch. -/
def unobserveAfter (entries : List Entry) (observed : List ℕ) : List ℕ :=
  observed.filter fun t => !(entries.any fun e => e.isIntersecting && e.target == t)

/-- Lines 134-146: one invocation of the observer callback on a notification
batch.  It schedules the staggered reveals and unobserves the intersecting
targets; it performs no style mutation itself (the timers do). -/
def observerCallback (st : ScrollState) (entries : List Entry) :
    ScrollState × List Scheduled :=
  ({ st with observed := unobserveAfter entries st.observed },
   scheduleEntries 0 entries)

/-- Firing of the stagger timers scheduled by one callback: each applies the
`reveal` mutation to its target. -/
def applyScheduled (styles : ℕ → Style) : List Scheduled → (ℕ → Style)
  | [] => styles
  | s :: rest =>
      applyScheduled (fun e => if e = s.target then reveal (styles e) else styles e) rest

/-- State after one notification batch has been processed and its stagger
timers have fired. -/
def stepState (st : ScrollState) (entries : List Entry) : ScrollState :=
  { styles := applyScheduled (observerCallback st entries).1.styles (observerCallback st entries).2,
    observed := (observerCallback st entries).1.observed }

/-- A sequence of notification batches processed in order; returns the final
state and every reveal that was scheduled along the way. -/
def runBatches (st : ScrollState) : List (List Entry) → ScrollState × List Scheduled
  | [] => (st, [])
  | b :: bs =>
      ((runBatches (stepState st b) bs).1,
       (observerCallback st b).2 ++ (runBatches (stepState st b) bs).2)

/-- A notification batch the browser can actually deliver: every entry's
target is currently observed. -/
def validBatch (st : ScrollState) (entries : List Entry) : Prop :=
  ∀ e ∈ entries, e.target ∈ st.observed

/-- Every batch of the sequence is deliverable in the state it arrives in. -/
def validRun (st : ScrollState) : List (List Entry) → Prop
  | [] => True
  | b :: bs => validBatch st b ∧ validRun (stepState st b) bs

/-- Modelled from the spec (for comparison with the code): the stagger delay
is the element's position within the intersecting subset of the batch times
100 ms. -/
def specStaggerDelays (entries : List Entry) : List Scheduled :=
  scheduleEntries 0 (entries.filter fun e => e.isIntersecting)

/-- Result of `getBBox()` when it does not throw. -/
structure BBox where
  x : ℚ
  y : ℚ
  width : ℚ
  height : ℚ
  deriving DecidableEq, Repr

/-- A foam cell as the assigner sees it: the outcome of its `getBBox()` call
(`none` = the call throws) and the two uniform draws in [0,1) that its
`Math.random()` calls return. -/
structure Cell where
  bbox : Option BBox
  r1 : ℚ
  r2 : ℚ
  deriving DecidableEq, Repr

/-- Value written to `transform-origin`: either the computed bounding-box
center or the literal fallback string "center center". -/
inductive Origin where
  | coords (cx cy : ℚ)
  | centerCenter
  deriving DecidableEq, Repr

/-- One style or class-list mutation performed on a cell, in program order. -/
inductive Mutation where
  | transformOrigin (v : Origin)
  | addClass (name : String)
  | animationDelay (v : ℚ)
  | animationDuration (v : ℚ)
  deriving DecidableEq, Repr

/-- Lines 205-233: the body of `foamCells.forEach((cell, index) => ...)`.
Inside the `try`, the bounding-box center becomes the transform origin, odd
indices get the `phase-contract` class, and delay/duration are
`index * -1.5 + (r1 - 0.5) * 0.8` and `20 + (r2 - 0.5) * 2` seconds.  If
`getBBox()` throws, the `catch` only sets the fallback origin. -/
def processFoamCell (index : ℕ) (cell : Cell) : List Mutation :=
  match cell.bbox with
  | some bbox =>
      let centerX := bbox.x + bbox.width / 2
      let centerY := bbox.y + bbox.height / 2
      [Mutation.transformOrigin (Origin.coords centerX centerY)] ++
        (if index % 2 = 1 then [Mutation.addClass "phase-contract"] else []) ++
        [Mutation.animationDelay ((index : ℚ) * (-3 / 2) + (cell.r1 - 1 / 2) * (4 / 5)),
         Mutation.animationDuration (20 + (cell.r2 - 1 / 2) * 2)]
  | none => [Mutation.transformOrigin Origin.centerCenter]

/-- Lines 236-253: the body of `interstitialCells.forEach((cell, index) => ...)`.
Delay is `index * -0.6 + (r1 - 0.5) * 1.5`, duration `5 + (r2 - 0.5) * 1.5`
seconds; no phase class.  The `catch` again only sets the fallback origin. -/
def processInterstitialCell (index : ℕ) (cell : Cell) : List Mutation :=
  match cell.bbox with
  | some bbox =>
      let centerX := bbox.x + bbox.width / 2
      let centerY := bbox.y + bbox.height / 2
      [Mutation.transformOrigin (Origin.coords centerX centerY),
       Mutation.animationDelay ((index : ℚ) * (-3 / 5) + (cell.r1 - 1 / 2) * (3 / 2)),
       Mutation.animationDuration (5 + (cell.r2 - 1 / 2) * (3 / 2))]
  | none => [Mutation.transformOrigin Origin.centerCenter]

/-- `forEach` with its index argument: applies `f` to every cell with the
cell's position in the sequence. -/
def processCells (f : ℕ → Cell → List Mutation) : ℕ → List Cell → List (List Mutation)
  | _, [] => []
  | i, c :: cs => f i c :: processCells f (i + 1) cs

/-- The environment `initFoamAnimation` reads: the `.foam-cell:not(.interstitial)`
cells, the `.foam-cell.interstitial` cells, and whether `.foam-cells` matched. -/
structure FoamEnv where
  foamCells : List Cell
  interstitialCells : List Cell
  svgPresent : Bool

/-- Lines 192-254: `initFoamAnimation`.  Returns `none` when the function
returns before `requestAnimationFrame` (no deferred pass, zero mutations);
otherwise `some (primary, interstitial)` with the mutation list of every
cell once the deferred pass has run. -/
def initFoamAnimation (env : FoamEnv) :
    Option (List (List Mutation) × List (List Mutation)) :=
  if env.foamCells = [] then none
  else if env.svgPresent = false then none
  else
    some (processCells processFoamCell 0 env.foamCells,
          processCells processInterstitialCell 0 env.interstitialCells)

/-- Recognizes an `animation-delay` write. -/
def isDelayMut : Mutation → Bool
  | Mutation.animationDelay _ => true
  | _ => false

/-- Recognizes an `animation-duration` write. -/
def isDurationMut : Mutation → Bool
  | Mutation.animationDuration _ => true
  | _ => false

/-- Recognizes the addition of the `phase-contract` marker class. -/
def isPhaseClassMut : Mutation → Bool
  | Mutation.addClass n => n == "phase-contract"
  | _ => false

/-! Helper lemmas -/

theorem processCells_length (f : ℕ → Cell → List Mutation) (k : ℕ) (cs : List Cell) :
    (processCells f k cs).length = cs.length := by
  induction cs generalizing k with
  | nil => rfl
  | cons c cs ih => simp [processCells, ih]

theorem processCells_get (f : ℕ → Cell → List Mutation) (cs : List Cell) :
    ∀ (k j : ℕ), (processCells f k cs)[j]? = (cs[j]?).map (f (k + j)) := by
  induction cs with
  | nil => intro k j; simp [processCells]
  | cons c cs ih =>
    intro k j
    cases j with
    | zero => simp [processCells]
    | succ j =>
      have h : k + 1 + j = k + (j + 1) := by omega
      simpa [processCells, h] using ih (k + 1) j

theorem scheduleEntries_all_intersecting (entries : List Entry) :
    ∀ i : ℕ, (∀ e ∈ entries, e.isIntersecting = true) →
      ((scheduleEntries i entries).map Scheduled.delayMs
          = (List.range entries.length).map fun j => (i + j) * 100) ∧
      (scheduleEntries i entries).map Scheduled.target = entries.map Entry.target := by
  induction entries with
  | nil => intro i _; simp [scheduleEntries]
  | cons e es ih =>
    intro i hall
    have he : e.isIntersecting = true := hall e (List.mem_cons_self e es)
    have hes : ∀ x ∈ es, x.isIntersecting = true :=
      fun x hx => hall x (List.mem_cons_of_mem e hx)
    obtain ⟨ih1, ih2⟩ := ih (i + 1) hes
    constructor
    · have lhs : (scheduleEntries i (e :: es)).map Scheduled.delayMs
          = i * 100 :: (scheduleEntries (i + 1) es).map Scheduled.delayMs := by
        simp [scheduleEntries, he]
      rw [lhs, ih1, List.length_cons, List.range_succ_eq_map, List.map_cons, List.map_map]
      simp only [List.cons.injEq]
      refine ⟨by omega, ?_⟩
      congr 1
      funext j
      simp only [Function.comp_apply]
      omega
    · have lhs : (scheduleEntries i (e :: es)).map Scheduled.target
          = e.target :: (scheduleEntries (i + 1) es).map Scheduled.target := by
        simp [scheduleEntries, he]
      rw [lhs, ih2, List.map_cons]

theorem scheduleEntries_mem_of_get (entries : List Entry) :
    ∀ (i j : ℕ) (e : Entry), entries[j]? = some e → e.isIntersecting = true →
      (⟨e.target, (i + j) * 100⟩ : Scheduled) ∈ scheduleEntries i entries := by
  induction entries with
  | nil => intro i j e h _; simp at h
  | cons x xs ih =>
    intro i j e h hint
    cases j with
    | zero =>
      simp at h
      subst h
      simp [scheduleEntries, hint]
    | succ j =>
      simp at h
      have hmem := ih (i + 1) j e h hint
      have harith : i + 1 + j = i + (j + 1) := by omega
      rw [harith] at hmem
      by_cases hx : x.isIntersecting = true <;> simp [scheduleEntries, hx, hmem]

theorem scheduleEntries_target_mem (entries : List Entry) :
    ∀ (i : ℕ) (s : Scheduled), s ∈ scheduleEntries i entries →
      s.target ∈ entries.map Entry.target := by
  induction entries with
  | nil => intro i s h; simp [scheduleEntries] at h
  | cons e es ih =>
    intro i s h
    by_cases he : e.isIntersecting = true
    · simp [scheduleEntries, he] at h
      rcases h with h | h
      · subst h; simp
      · simp [ih (i + 1) s h]
    · simp [scheduleEntries, he] at h
      simp [ih (i + 1) s h]

theorem unobserveAfter_subset (entries : List Entry) (observed : List ℕ) (t : ℕ)
    (h : t ∈ unobserveAfter entries observed) : t ∈ observed :=
  (List.mem_filter.mp h).1

theorem unobserveAfter_not_mem_of_intersecting (entries : List Entry) (observed : List ℕ)
    (t : ℕ) (h : (entries.any fun e => e.isIntersecting && e.target == t) = true) :
    t ∉ unobserveAfter entries observed := by
  intro hmem
  have hp := (List.mem_filter.mp hmem).2
  rw [h] at hp
  simp at hp

theorem applyScheduled_preserve (sch : List Scheduled) :
    ∀ (styles : ℕ → Style) (e : ℕ), (∀ s ∈ sch, s.target ≠ e) →
      applyScheduled styles sch e = styles e := by
  induction sch with
  | nil => intro styles e _; rfl
  | cons s rest ih =>
    intro styles e h
    have h1 : s.target ≠ e := h s (List.mem_cons_self s rest)
    have h2 : ∀ x ∈ rest, x.target ≠ e := fun x hx => h x (List.mem_cons_of_mem s hx)
    show applyScheduled (fun a => if a = s.target then reveal (styles a) else styles a) rest e
        = styles e
    rw [ih _ e h2]
    rw [if_neg fun hh => h1 hh.symm]

theorem runBatches_untouched (batches : List (List Entry)) :
    ∀ (st : ScrollState) (t : ℕ), t ∉ st.observed → validRun st batches →
      (∀ s ∈ (runBatches st batches).2, s.target ≠ t) ∧
      (runBatches st batches).1.styles t = st.styles t ∧
      t ∉ (runBatches st batches).1.observed := by
  induction batches with
  | nil => intro st t h _; exact ⟨by simp [runBatches], rfl, h⟩
  | cons b bs ih =>
    intro st t hobs hvalid
    obtain ⟨hb, hrest⟩ := hvalid
    have htarg : ∀ e ∈ b, e.target ≠ t := fun e he heq => hobs (heq ▸ hb e he)
    have hsch : ∀ s ∈ (observerCallback st b).2, s.target ≠ t := by
      intro s hs heq
      have hmem := scheduleEntries_target_mem b 0 s hs
      rw [heq] at hmem
      obtain ⟨e, he, hET⟩ := List.mem_map.mp hmem
      exact htarg e he hET
    have hobs1 : t ∉ (stepState st b).observed := fun hmem =>
      hobs (unobserveAfter_subset b st.observed t hmem)
    have hsty1 : (stepState st b).styles t = st.styles t := by
      show applyScheduled (observerCallback st b).1.styles (observerCallback st b).2 t
          = st.styles t
      rw [applyScheduled_preserve _ _ t hsch]
      rfl
    obtain ⟨ih1, ih2, ih3⟩ := ih (stepState st b) t hobs1 hrest
    refine ⟨?_, ?_, ih3⟩
    · intro s hs
      have : s ∈ (observerCallback st b).2 ++ (runBatches (stepState st b) bs).2 := hs
      rcases List.mem_append.mp this with h | h
      · exact hsch s h
      · exact ih1 s h
    · show (runBatches (stepState st b) bs).1.styles t = st.styles t
      rw [ih2, hsty1]

/-! Claim theorems -/

/-- C1 counterexample: in a callback whose entries list is
`[not intersecting, intersecting]`, the single intersecting element is
scheduled with a 100 ms stagger delay, while its position among the
intersecting elements of the callback is 0, so the claimed delay would be
0 ms.  The code indexes the full entries list, not the intersecting
subset. -/
theorem c1_counterexample :
    scheduleEntries 0 [⟨0, false⟩, ⟨1, true⟩] = [⟨1, 100⟩] ∧
    specStaggerDelays [⟨0, false⟩, ⟨1, true⟩] = [⟨1, 0⟩] ∧
    scheduleEntries 0 [⟨0, false⟩, ⟨1, true⟩]
      ≠ specStaggerDelays [⟨0, false⟩, ⟨1, true⟩] := by
  refine ⟨rfl, rfl, ?_⟩
  decide

/-- C1 amended: each intersecting entry's stagger delay is its position in
the callback's full entries list times 100 ms; in particular, when every
entry of a batch of N elements is intersecting, the scheduled delays are
exactly 0, 100, ..., (N-1)*100 ms in batch order. -/
theorem c1_stagger_by_entries_position (entries : List Entry) :
    ((∀ e ∈ entries, e.isIntersecting = true) →
      ((scheduleEntries 0 entries).map Scheduled.delayMs
          = (List.range entries.length).map fun j => j * 100) ∧
      (scheduleEntries 0 entries).map Scheduled.target = entries.map Entry.target) ∧
    (∀ (j : ℕ) (e : Entry), entries[j]? = some e → e.isIntersecting = true →
      (⟨e.target, j * 100⟩ : Scheduled) ∈ scheduleEntries 0 entries) := by
  constructor
  · intro hall
    obtain ⟨h1, h2⟩ := scheduleEntries_all_intersecting entries 0 hall
    refine ⟨?_, h2⟩
    rw [h1]
    congr 1
    funext j
    omega
  · intro j e hj hint
    have := scheduleEntries_mem_of_get entries 0 j e hj hint
    simpa using this

/-- Witness for the amended C1 at a concrete two-element batch. -/
theorem c1_stagger_by_entries_position_witness :
    (((scheduleEntries 0 [⟨5, true⟩, ⟨7, true⟩]).map Scheduled.delayMs
        = (List.range (List.length [(⟨5, true⟩ : Entry), ⟨7, true⟩])).map fun j => j * 100) ∧
      (scheduleEntries 0 [⟨5, true⟩, ⟨7, true⟩]).map Scheduled.target
        = [(⟨5, true⟩ : Entry), ⟨7, true⟩].map Entry.target) ∧
    (⟨7, 1 * 100⟩ : Scheduled) ∈ scheduleEntries 0 [⟨5, true⟩, ⟨7, true⟩] :=
  ⟨(c1_stagger_by_entries_position [⟨5, true⟩, ⟨7, true⟩]).1 (by decide),
   (c1_stagger_by_entries_position [⟨5, true⟩, ⟨7, true⟩]).2 1 ⟨7, true⟩ rfl rfl⟩

/-- C4 counterexample: with no IntersectionObserver the animator returns
before touching any element.  An element whose stylesheet leaves it in the
hidden state (opacity 0, 20px down) keeps that state forever, and no
element has its opacity set to the revealed value "1"; the code does not
degrade to an immediate full reveal. -/
theorem c4_counterexample :
    (initScrollAnimations ⟨false, [0]⟩ fun _ =>
        ⟨some "0", some "translateY(20px)", none⟩).1 0
      = ⟨some "0", some "translateY(20px)", none⟩ ∧
    ((initScrollAnimations ⟨false, [0]⟩ fun _ =>
        ⟨some "0", some "translateY(20px)", none⟩).1 0).opacity ≠ some "1" ∧
    (initScrollAnimations ⟨false, [0]⟩ fun _ =>
        ⟨some "0", some "translateY(20px)", none⟩).2 = [] := by
  refine ⟨rfl, ?_, rfl⟩
  decide

/-- C4 amended: when the environment provides no viewport-intersection
capability, `initScrollAnimations` is a complete no-op: it mutates no
element's style (in particular it neither applies the hidden initial state
nor reveals anything) and observes no element. -/
theorem c4_no_capability_noop (elems : List ℕ) (styles : ℕ → Style) (e : ℕ) :
    (initScrollAnimations ⟨false, elems⟩ styles).1 e = styles e ∧
    (initScrollAnimations ⟨false, elems⟩ styles).2 = [] := by
  constructor <;> rfl

/-- C7: if the primary cell sequence is empty, `initFoamAnimation` schedules
no deferred animation-frame pass and makes zero style mutations, whatever
the interstitial sequence and the container lookup yield. -/
theorem c7_empty_primary_no_work (inter : List Cell) (svg : Bool) :
    initFoamAnimation ⟨[], inter, svg⟩ = none := by
  simp [initFoamAnimation]

/-- C8 counterexample: a primary cell at odd index 1 whose bounding-box
query throws receives no `phase-contract` marker, so the marker is not
added exactly when the index is odd. -/
theorem c8_counterexample :
    ¬ (Mutation.addClass "phase-contract" ∈ processFoamCell 1 ⟨none, 1 / 4, 1 / 4⟩
        ↔ (1 : ℕ) % 2 = 1) := by
  decide

/-- C8 amended: the `phase-contract` marker is added to a primary cell iff
its index is odd and its bounding-box query succeeds; concretely, for a
length-4 primary sequence whose queries all succeed, exactly indices 1 and
3 receive the marker. -/
theorem c8_phase_marker_parity :
    (∀ (i : ℕ) (c : Cell),
        Mutation.addClass "phase-contract" ∈ processFoamCell i c ↔
          (i % 2 = 1 ∧ c.bbox ≠ none)) ∧
    (processCells processFoamCell 0
        [⟨some ⟨0, 0, 2, 2⟩, 1 / 2, 1 / 2⟩, ⟨some ⟨0, 0, 2, 2⟩, 1 / 2, 1 / 2⟩,
         ⟨some ⟨0, 0, 2, 2⟩, 1 / 2, 1 / 2⟩, ⟨some ⟨0, 0, 2, 2⟩, 1 / 2, 1 / 2⟩]).map
        (List.countP isPhaseClassMut) = [0, 1, 0, 1] := by
  constructor
  · intro i c
    cases hc : c.bbox with
    | none => simp [processFoamCell, hc]
    | some b => by_cases hpar : i % 2 = 1 <;> simp [processFoamCell, hc, hpar]
  · decide

/-- C10: even with a non-empty primary sequence, if nothing matches the
`.foam-cells` container selector, `initFoamAnimation` schedules no deferred
pass and makes zero style mutations. -/
theorem c10_missing_container_no_work (cells inter : List Cell) :
    initFoamAnimation ⟨cells, inter, false⟩ = none := by
  by_cases h : cells = [] <;> simp [initFoamAnimation, h]

/-- C2: once an element intersects in some notification batch, the callback
unobserves it; in every subsequent deliverable batch sequence it is never
scheduled for a reveal again and its style is never mutated again, no
matter how often it enters and leaves the viewport afterwards. -/
theorem c2_reveal_at_most_once (st : ScrollState) (b : List Entry) (t : ℕ)
    (batches : List (List Entry))
    (hint : ∃ e ∈ b, e.target = t ∧ e.isIntersecting = true)
    (hvalid : validRun (stepState st b) batches) :
    t ∉ (stepState st b).observed ∧
    (∀ s ∈ (runBatches (stepState st b) batches).2, s.target ≠ t) ∧
    (runBatches (stepState st b) batches).1.styles t = (stepState st b).styles t := by
  obtain ⟨e, he, het, hei⟩ := hint
  have hany : (b.any fun x => x.isIntersecting && x.target == t) = true := by
    rw [List.any_eq_true]
    exact ⟨e, he, by simp [hei, het]⟩
  have hobs1 : t ∉ (stepState st b).observed :=
    unobserveAfter_not_mem_of_intersecting b st.observed t hany
  obtain ⟨h1, h2, _⟩ := runBatches_untouched batches (stepState st b) t hobs1 hvalid
  exact ⟨hobs1, h1, h2⟩

/-- Witness for C2: element 0 intersects in the first batch; in the later
batch where element 1 intersects, 0 is neither scheduled nor restyled. -/
theorem c2_reveal_at_most_once_witness :
    (0 : ℕ) ∉ (stepState ⟨fun _ => ⟨none, none, none⟩, [0, 1]⟩ [⟨0, true⟩]).observed ∧
    (∀ s ∈ (runBatches (stepState ⟨fun _ => ⟨none, none, none⟩, [0, 1]⟩ [⟨0, true⟩])
        [[⟨1, true⟩]]).2, s.target ≠ 0) ∧
    (runBatches (stepState ⟨fun _ => ⟨none, none, none⟩, [0, 1]⟩ [⟨0, true⟩])
        [[⟨1, true⟩]]).1.styles 0
      = (stepState ⟨fun _ => ⟨none, none, none⟩, [0, 1]⟩ [⟨0, true⟩]).styles 0 :=
  c2_reveal_at_most_once ⟨fun _ => ⟨none, none, none⟩, [0, 1]⟩ [⟨0, true⟩] 0 [[⟨1, true⟩]]
    ⟨⟨0, true⟩, List.mem_cons_self _ _, rfl, rfl⟩
    ⟨by intro e he; simp at he; subst he; decide, trivial⟩

/-- C3 counterexample: a primary cell at odd index 1 whose bounding-box
query throws receives only the fallback transform-origin: zero
animation-delay assignments, zero animation-duration assignments and no
phase marker, refuting "exactly one ... regardless of whether the
bounding-box query succeeds or fails". -/
theorem c3_counterexample :
    processFoamCell 1 ⟨none, 0, 0⟩ = [Mutation.transformOrigin Origin.centerCenter] ∧
    (processFoamCell 1 ⟨none, 0, 0⟩).countP isDelayMut = 0 ∧
    (processFoamCell 1 ⟨none, 0, 0⟩).countP isDurationMut = 0 ∧
    (processFoamCell 1 ⟨none, 0, 0⟩).countP isPhaseClassMut = 0 :=
  ⟨rfl, rfl, rfl, rfl⟩

/-- C3 amended: a decorative cell whose bounding-box query succeeds receives
exactly one animation-delay, exactly one animation-duration and, for
primary cells, the phase marker exactly when its index is odd; a cell whose
query fails receives only the fallback transform-origin.  Each cell's
mutation list is a function of its own index and cell data alone (no shared
mutable counter), so assignments are independent across cells. -/
theorem c3_assignment_multiplicity (i : ℕ) (c : Cell) :
    (c.bbox ≠ none →
      (processFoamCell i c).countP isDelayMut = 1 ∧
      (processFoamCell i c).countP isDurationMut = 1 ∧
      (processFoamCell i c).countP isPhaseClassMut = (if i % 2 = 1 then 1 else 0) ∧
      (processInterstitialCell i c).countP isDelayMut = 1 ∧
      (processInterstitialCell i c).countP isDurationMut = 1) ∧
    (c.bbox = none →
      processFoamCell i c = [Mutation.transformOrigin Origin.centerCenter] ∧
      processInterstitialCell i c = [Mutation.transformOrigin Origin.centerCenter]) ∧
    (∀ cells : List Cell,
      (processCells processFoamCell 0 cells)[i]?
        = (cells[i]?).map fun cj => processFoamCell i cj) ∧
    (∀ cells : List Cell,
      (processCells processInterstitialCell 0 cells)[i]?
        = (cells[i]?).map fun cj => processInterstitialCell i cj) := by
  refine ⟨?_, ?_, ?_, ?_⟩
  · intro hc
    cases hcc : c.bbox with
    | none => exact absurd hcc hc
    | some b =>
      by_cases hpar : i % 2 = 1 <;>
        simp [processFoamCell, processInterstitialCell, hcc, hpar,
          isDelayMut, isDurationMut, isPhaseClassMut, List.countP_cons]
  · intro hc
    exact ⟨by simp [processFoamCell, hc], by simp [processInterstitialCell, hc]⟩
  · intro cells; simpa using processCells_get processFoamCell cells 0 i
  · intro cells; simpa using processCells_get processInterstitialCell cells 0 i

/-- Witness for the amended C3 at a successful odd-index cell. -/
theorem c3_assignment_multiplicity_witness :
    (processFoamCell 1 ⟨some ⟨0, 0, 2, 2⟩, 1 / 3, 1 / 3⟩).countP isDelayMut = 1 ∧
    (processFoamCell 1 ⟨some ⟨0, 0, 2, 2⟩, 1 / 3, 1 / 3⟩).countP isDurationMut = 1 ∧
    (processFoamCell 1 ⟨some ⟨0, 0, 2, 2⟩, 1 / 3, 1 / 3⟩).countP isPhaseClassMut
      = (if (1 : ℕ) % 2 = 1 then 1 else 0) ∧
    (processInterstitialCell 1 ⟨some ⟨0, 0, 2, 2⟩, 1 / 3, 1 / 3⟩).countP isDelayMut = 1 ∧
    (processInterstitialCell 1 ⟨some ⟨0, 0, 2, 2⟩, 1 / 3, 1 / 3⟩).countP isDurationMut = 1 :=
  (c3_assignment_multiplicity 1 ⟨some ⟨0, 0, 2, 2⟩, 1 / 3, 1 / 3⟩).1 (by decide)

/-- C5: for uniform draws in [0,1), every primary delay lies in
[i*-1.5 - 0.4, i*-1.5 + 0.4] and every primary duration in [19, 21];
every interstitial delay lies in [j*-0.6 - 0.75, j*-0.6 + 0.75] and every
interstitial duration in [4.25, 5.75] (all in seconds). -/
theorem c5_timing_bounds (i : ℕ) (c : Cell) (b : BBox) (hb : c.bbox = some b)
    (h1 : 0 ≤ c.r1) (h2 : c.r1 < 1) (h3 : 0 ≤ c.r2) (h4 : c.r2 < 1) :
    (∀ d, Mutation.animationDelay d ∈ processFoamCell i c →
        (i : ℚ) * (-3 / 2) - 2 / 5 ≤ d ∧ d ≤ (i : ℚ) * (-3 / 2) + 2 / 5) ∧
    (∀ d, Mutation.animationDuration d ∈ processFoamCell i c → 19 ≤ d ∧ d ≤ 21) ∧
    (∀ d, Mutation.animationDelay d ∈ processInterstitialCell i c →
        (i : ℚ) * (-3 / 5) - 3 / 4 ≤ d ∧ d ≤ (i : ℚ) * (-3 / 5) + 3 / 4) ∧
    (∀ d, Mutation.animationDuration d ∈ processInterstitialCell i c →
        17 / 4 ≤ d ∧ d ≤ 23 / 4) := by
  refine ⟨?_, ?_, ?_, ?_⟩ <;> intro d hd <;>
    by_cases hpar : i % 2 = 1 <;>
    simp [processFoamCell, processInterstitialCell, hb, hpar] at hd <;>
    subst hd <;> constructor <;> linarith

/-- Witness for C5: the delay of the index-0 primary cell with draws 1/4
lies within the documented bounds. -/
theorem c5_timing_bounds_witness :
    (0 : ℚ) * (-3 / 2) - 2 / 5 ≤ -1 / 5 ∧ (-1 / 5 : ℚ) ≤ (0 : ℚ) * (-3 / 2) + 2 / 5 :=
  (c5_timing_bounds 0 ⟨some ⟨0, 0, 2, 2⟩, 1 / 4, 1 / 4⟩ ⟨0, 0, 2, 2⟩ rfl
      (by norm_num) (by norm_num) (by norm_num) (by norm_num)).1
    (-1 / 5) (by norm_num [processFoamCell])

/-- C6: a cell whose bounding-box query throws is handled locally: it gets
the fallback "center center" origin, the whole pass still runs to
completion (`initFoamAnimation` returns normally with every cell of both
sequences processed), and each cell's output is independent of the other
cells' failures. -/
theorem c6_bbox_failure_contained (env : FoamEnv) (i : ℕ) (c : Cell)
    (hne : env.foamCells ≠ []) (hsvg : env.svgPresent = true) (hc : c.bbox = none) :
    processFoamCell i c = [Mutation.transformOrigin Origin.centerCenter] ∧
    processInterstitialCell i c = [Mutation.transformOrigin Origin.centerCenter] ∧
    ∃ p q, initFoamAnimation env = some (p, q) ∧
      p.length = env.foamCells.length ∧
      q.length = env.interstitialCells.length ∧
      (∀ j : ℕ, p[j]? = (env.foamCells[j]?).map fun cj => processFoamCell j cj) ∧
      (∀ j : ℕ, q[j]? = (env.interstitialCells[j]?).map fun cj => processInterstitialCell j cj) := by
  refine ⟨by simp [processFoamCell, hc], by simp [processInterstitialCell, hc],
    processCells processFoamCell 0 env.foamCells,
    processCells processInterstitialCell 0 env.interstitialCells, ?_, ?_, ?_, ?_, ?_⟩
  · simp [initFoamAnimation, hne, hsvg]
  · exact processCells_length _ 0 _
  · exact processCells_length _ 0 _
  · intro j; simpa using processCells_get processFoamCell env.foamCells 0 j
  · intro j; simpa using processCells_get processInterstitialCell env.interstitialCells 0 j

/-- Witness for C6: one failing primary cell, empty interstitial sequence. -/
theorem c6_bbox_failure_contained_witness :
    processFoamCell 0 ⟨none, 0, 0⟩ = [Mutation.transformOrigin Origin.centerCenter] ∧
    processInterstitialCell 0 ⟨none, 0, 0⟩ = [Mutation.transformOrigin Origin.centerCenter] ∧
    ∃ p q, initFoamAnimation ⟨[⟨none, 0, 0⟩], [], true⟩ = some (p, q) ∧
      p.length = (FoamEnv.mk [⟨none, 0, 0⟩] [] true).foamCells.length ∧
      q.length = (FoamEnv.mk [⟨none, 0, 0⟩] [] true).interstitialCells.length ∧
      (∀ j : ℕ, p[j]?
        = ((FoamEnv.mk [⟨none, 0, 0⟩] [] true).foamCells[j]?).map fun cj => processFoamCell j cj) ∧
      (∀ j : ℕ, q[j]?
        = ((FoamEnv.mk [⟨none, 0, 0⟩] [] true).interstitialCells[j]?).map
            fun cj => processInterstitialCell j cj) :=
  c6_bbox_failure_contained ⟨[⟨none, 0, 0⟩], [], true⟩ 0 ⟨none, 0, 0⟩
    (by simp) rfl rfl

/-- C9: with intersection support and a non-empty element list, every
watched element is put in the hidden initial state (opacity "0", 20px
downward translation, 0.5s "ease" transition covering both opacity and
transform) before observation starts, and the reveal mutation writes only
opacity "1" and a zero translation, leaving the configured transition in
place so the change animates. -/
theorem c9_hidden_then_reveal (env : ScrollEnv) (styles : ℕ → Style) (e : ℕ)
    (hcap : env.hasIntersectionObserver = true)
    (hne : env.animatedElements ≠ [])
    (he : e ∈ env.animatedElements) :
    (initScrollAnimations env styles).1 e =
      { opacity := some "0", transform := some "translateY(20px)",
        transition := some "opacity 0.5s ease, transform 0.5s ease" } ∧
    (initScrollAnimations env styles).2 = env.animatedElements ∧
    ∀ s : Style, reveal s =
      { opacity := some "1", transform := some "translateY(0)",
        transition := s.transition } := by
  refine ⟨?_, ?_, fun s => rfl⟩
  · simp [initScrollAnimations, hcap, hne, he, hiddenInit]
  · simp [initScrollAnimations, hcap, hne]

/-- Witness for C9 on a one-element page with stylesheet-default styles. -/
theorem c9_hidden_then_reveal_witness :
    (initScrollAnimations ⟨true, [0]⟩ fun _ => ⟨none, none, none⟩).1 0 =
      { opacity := some "0", transform := some "translateY(20px)",
        transition := some "opacity 0.5s ease, transform 0.5s ease" } ∧
    (initScrollAnimations ⟨true, [0]⟩ fun _ => ⟨none, none, none⟩).2
      = (ScrollEnv.mk true [0]).animatedElements ∧
    ∀ s : Style, reveal s =
      { opacity := some "1", transform := some "translateY(0)",
        transition := s.transition } :=
  c9_hidden_then_reveal ⟨true, [0]⟩ (fun _ => ⟨none, none, none⟩) 0 rfl
    (by simp) (by simp)

end StudioFoam
